import Mathlib

/-!
Shallow embedding of the DOM snapshotting / interactive-element classification
pipeline of the r6d9-agent-node repository, together with proofs about the
spec's testable properties.

Sources embedded here:
* `src/core/tools/browser/dom/utils/element-utils.ts` — `isElementInteractive`
* `src/core/tools/browser/dom/utils/element.ts` — `isElementClickable`,
  `injectMmidAttributes` (the high-water-mark version), `cleanupMmidAttributes`
* `src/core/tools/browser/dom/config/ignore.ts` — `IGNORE_CONFIG`
* `src/core/tools/browser/dom/services/dom-info.ts` — `injectMmidAttributes`
  (the number-everything version), `processDomNode`, `processNode`,
  `pruneTree`, `isInputNode`, `processNodeForOutput`, `getDomInfo`
* `src/core/tools/browser/dom/services/dom-field.ts` — `getDomFields`

Modelling conventions: a live element is a snapshot record of exactly the
observations the embedded code makes (tag name, attribute map, DOM
properties, computed style); a document is the list of its elements in
document order plus the body-level state this code touches. Machine numbers
are `Int` (the counters stay tiny and never overflow in JS doubles).
-/

namespace R6d9

/-- Attribute map of a live element: association list from attribute name to
value, first binding wins (attribute names are unique on a real element; the
operations below preserve uniqueness). -/
abbrev Attrs := List (String × String)

/-- Mirrors `element.getAttribute(k)`: the attribute's value, or `none` when
the attribute is absent (JS `null`). -/
def getAttr (a : Attrs) (k : String) : Option String :=
  (a.find? (fun p => p.1 == k)).map Prod.snd

/-- Mirrors `element.setAttribute(k, v)`: replaces the existing binding (in
place) or appends a new one. -/
def setAttr (a : Attrs) (k v : String) : Attrs :=
  match a with
  | [] => [(k, v)]
  | p :: rest => if p.1 == k then (k, v) :: rest else p :: setAttr rest k v

/-- Mirrors `element.removeAttribute(k)`. -/
def removeAttr (a : Attrs) (k : String) : Attrs :=
  a.filter (fun p => p.1 != k)

/-- Character-level `String.prototype.toLowerCase` (every string this code
lowercases is an ASCII tag/attribute/class name). -/
def jsToLower (s : String) : String :=
  String.mk (s.toList.map Char.toLower)

/-- Character-level `String.prototype.trim`. -/
def jsTrim (s : String) : String :=
  String.mk (((s.toList.dropWhile Char.isWhitespace).reverse.dropWhile Char.isWhitespace).reverse)

/-- Snapshot of one `<option>` inside a `<select>`: the fields read by
`getElementInfo` (dom-info.ts) and `getDomFields` (dom-field.ts). -/
structure OptElem where
  /-- Mirrors `option.getAttribute('mmid')`. -/
  mmidAttr : Option String := none
  /-- Mirrors `option.text`. -/
  text : String := ""
  /-- Mirrors `option.value`. -/
  value : String := ""
  /-- Mirrors `option.selected`. -/
  selected : Bool := false
deriving Repr, DecidableEq

/-- Snapshot of a live DOM element: one field per observation the embedded
code performs on an element. Attribute-reflected DOM properties
(`required`, `disabled`, `readonly`, `multiple`, `id`) are derived from
`attrs`; live state (current value, checkedness, attached handlers, computed
style) is stored directly. -/
structure Elem where
  /-- Mirrors `element.tagName` (the code always lowercases it before use). -/
  tagName : String
  /-- The element's attribute map (`getAttribute`/`setAttribute`/`hasAttribute`). -/
  attrs : Attrs := []
  /-- The `element.type` DOM property (`undefined` for elements without one;
  for `<input>` this is the normalized type). -/
  typeProp : Option String := none
  /-- Mirrors `element.className`. -/
  className : String := ""
  /-- Mirrors `element.innerText`. -/
  innerText : String := ""
  /-- Mirrors `element.textContent`. -/
  textContent : String := ""
  /-- The `element.value` DOM property (inputs, selects, textareas). -/
  value : String := ""
  /-- The `element.checked` DOM property. -/
  checked : Bool := false
  /-- The `element.maxLength` DOM property (−1 when unset). -/
  maxLength : Int := -1
  /-- The `element.options` collection of a `<select>`, in DOM order. -/
  options : List OptElem := []
  /-- Whether `element.onclick` is non-null (a handler property is attached). -/
  onclickProp : Bool := false
  /-- Whether `element.querySelector('svg')` finds a descendant. -/
  hasSvg : Bool := false
  /-- Whether `element.querySelector('i[class*="icon"], svg, img.icon, .icon')`
  finds a descendant icon element. -/
  hasIconElem : Bool := false
  /-- Inline `element.style.border` (empty string when unset). -/
  styleBorder : String := ""
  /-- Inline `element.style.outline` (empty string when unset). -/
  styleOutline : String := ""
  /-- Mirrors `getComputedStyle(element).cursor`. -/
  cursor : String := "auto"
  /-- Mirrors `getComputedStyle(element).userSelect`. -/
  userSelect : String := "auto"
  /-- Mirrors `getComputedStyle(element).backgroundColor`. -/
  backgroundColor : String := ""
  /-- Mirrors `getComputedStyle(element).border`. -/
  computedBorder : String := "none"
deriving Repr, DecidableEq

/-- Mirrors `element.getAttribute(k)`. -/
def Elem.getAttribute (e : Elem) (k : String) : Option String :=
  getAttr e.attrs k

/-- Mirrors `element.hasAttribute(k)`. -/
def Elem.hasAttr (e : Elem) (k : String) : Bool :=
  (getAttr e.attrs k).isSome

/-- Mirrors the `element.id` DOM property (empty string when no id attribute). -/
def Elem.idProp (e : Elem) : String :=
  (getAttr e.attrs "id").getD ""

/-! ## Ignore configuration (`dom/config/ignore.ts`) -/

/-- Mirrors `TAGS_TO_IGNORE` from the ignore configuration. -/
def TAGS_TO_IGNORE : List String :=
  ["head", "style", "script", "link", "meta", "noscript", "template",
   "iframe", "g", "main", "c-wiz", "path", "html"]

/-- Mirrors `IDS_TO_IGNORE` from the ignore configuration. -/
def IDS_TO_IGNORE : List String := ["agentDriveAutoOverlay"]

/-! ## Interactivity classifier (`dom/utils/element-utils.ts`) -/

/-- The interactive `<input>` types tested by rule 2 of `isElementInteractive`. -/
def interactiveInputTypes : List String :=
  ["text", "password", "number", "email", "tel", "url", "search", "date",
   "time", "datetime-local", "month", "week", "checkbox", "radio", "file",
   "submit", "reset", "button"]

/-- The interactive ARIA roles tested by rule 3 of `isElementInteractive`. -/
def interactiveRoles : List String :=
  ["button", "link", "checkbox", "radio", "textbox", "combobox", "listbox",
   "switch", "slider", "spinbutton", "menuitem", "option"]

/-- The inline-handler event names tested by rule 5 of `isElementInteractive`. -/
def interactiveEvents : List String :=
  ["click", "mousedown", "mouseup", "touchstart", "touchend", "keydown", "keyup"]

/-- Rule 1 of `isElementInteractive`: common interactive tags.
Source: `if (['a', 'button', 'select', 'textarea'].includes(tagName)) return true`. -/
def ruleTagInteractive (e : Elem) : Bool :=
  ["a", "button", "select", "textarea"].contains (jsToLower e.tagName)

/-- Rule 2 of `isElementInteractive`: `<input>` with an interactive `type`.
Source: `tagName === 'input' && [...].includes(type)` where
`type = element.type?.toLowerCase()` (the `includes` of an undefined type is
false). -/
def ruleInputType (e : Elem) : Bool :=
  (jsToLower e.tagName) == "input" &&
    (match e.typeProp.map jsToLower with
     | some t => interactiveInputTypes.contains t
     | none => false)

/-- Rule 3 of `isElementInteractive`: ARIA role checks.
Source: `role === 'WebArea'` then `[...].includes(role)` with
`role = element.getAttribute('role') || ''`. -/
def ruleAriaRole (e : Elem) : Bool :=
  let role := (e.getAttribute "role").getD ""
  role == "WebArea" || interactiveRoles.contains role

/-- Rule 4 of `isElementInteractive`: a `tabindex` attribute other than `-1`.
Source: `element.hasAttribute('tabindex') && element.getAttribute('tabindex') !== '-1'`. -/
def ruleTabindex (e : Elem) : Bool :=
  e.hasAttr "tabindex" && (e.getAttribute "tabindex") != some "-1"

/-- Rule 5 of `isElementInteractive`: an inline `on<event>` attribute for one
of the interactive events. -/
def ruleInlineHandler (e : Elem) : Bool :=
  interactiveEvents.any (fun ev => e.hasAttr ("on" ++ ev))

/-- Rule 6 of `isElementInteractive`: the computed-cursor check.
Source: `['pointer', 'cursor', 'grab', 'grabbing'].includes(style.cursor)` —
note the list literally contains the string `'cursor'`. -/
def ruleCursor (e : Elem) : Bool :=
  ["pointer", "cursor", "grab", "grabbing"].contains e.cursor

/-- Mirrors `isElementInteractive` (element-utils.ts): the sequential first-match-wins
decision chain, each `if (...) return true` of the source appearing as one
named rule above. -/
def isElementInteractive (e : Elem) : Bool :=
  if ruleTagInteractive e then true
  else if ruleInputType e then true
  else if ruleAriaRole e then true
  else if ruleTabindex e then true
  else if ruleInlineHandler e then true
  else if ruleCursor e then true
  else false

/-- Conjunction form: the element fails rules 1–5 of the decision order. -/
def failsRulesOneToFive (e : Elem) : Bool :=
  !(ruleTagInteractive e || ruleInputType e || ruleAriaRole e ||
    ruleTabindex e || ruleInlineHandler e)

/-- Mirrors JS `String.prototype.includes`: some window of `s` equals `sub`. -/
def strIncludes (s sub : String) : Bool :=
  let p := sub.toList
  let l := s.toList
  (List.range (l.length + 1)).any (fun i => (l.drop i).take p.length == p)

/-- Mirrors `isElementClickable` (element.ts): the looser clickability predicate. -/
def isElementClickable (e : Elem) : Bool :=
  e.onclickProp ||
  e.cursor == "pointer" ||
  e.getAttribute "role" == some "button" ||
  e.hasAttr "tabindex" ||
  strIncludes (jsToLower e.className) "trigger" ||
  strIncludes (jsToLower e.className) "clickable" ||
  e.hasSvg ||
  (jsToLower e.tagName) == "button" ||
  (jsToLower e.tagName) == "a" ||
  e.getAttribute "role" == some "link" ||
  e.getAttribute "role" == some "tab"

/-! ## Documents -/

/-- Snapshot of the live document: all elements in document order, the title,
and the body-level high-water-mark register. The `last-mmid` body attribute is
written only by `document.body.setAttribute('last-mmid', id.toString())` and
read back via `+(document.body.getAttribute('last-mmid') ?? -1)`, so it is
modelled as an integer-valued register (`none` = attribute absent, read as −1). -/
structure Doc where
  elems : List Elem := []
  title : String := ""
  lastMmidAttr : Option Int := none
deriving Repr, DecidableEq

/-! ## Identifier injector (`dom/utils/element.ts`, `injectMmidAttributes`) -/

/-- The `continue` guard of the `injectMmidAttributes` element loop
(element.ts): the element's tag or id is in the ignore configuration, or it
is not interactive. -/
def injectSkips (e : Elem) : Bool :=
  TAGS_TO_IGNORE.contains (jsToLower e.tagName) ||
  IDS_TO_IGNORE.contains e.idProp ||
  !isElementInteractive e

/-- The debug border applied by the injector. -/
def debugBorder : String := "2px solid #3498db"

/-- Whether the element already carries a truthy (nonempty) `mmid` attribute:
`element.getAttribute('mmid')` is truthy in the `||` of the loop body. -/
def hasTruthyMmid (e : Elem) : Bool :=
  match getAttr e.attrs "mmid" with
  | some s => s != ""
  | none => false

/-- The tail of the `injectMmidAttributes` loop body once an `mmid` value is
chosen: `setAttribute('mmid', mmid)`, paint the debug border, and back up a
nonempty prior inline outline under `orig-border`. -/
def injectTag (e : Elem) (mmid : String) : Elem :=
  let e1 : Elem := { e with attrs := setAttr e.attrs "mmid" mmid }
  let origOutline := e1.styleOutline
  let e2 : Elem := { e1 with styleBorder := debugBorder }
  if origOutline != "" then { e2 with attrs := setAttr e2.attrs "orig-border" origOutline }
  else e2

/-- The element loop of the in-page function of `injectMmidAttributes`
(element.ts). State: the running counter `id`. For each element: skip it when
`injectSkips` holds; otherwise keep its existing truthy `mmid` or assign
`String(++id)` (`getAttribute('mmid') || String(++id)`), then run the tagging
tail. -/
def injectLoop : List Elem → Int → List Elem × Int
  | [], id => ([], id)
  | e :: rest, id =>
    if injectSkips e then
      let (rest', id') := injectLoop rest id
      (e :: rest', id')
    else
      let (mmid, id1) :=
        match getAttr e.attrs "mmid" with
        | some s => if s == "" then (toString (id + 1), id + 1) else (s, id)
        | none => (toString (id + 1), id + 1)
      let (rest', id') := injectLoop rest id1
      (injectTag e mmid :: rest', id')

/-- The in-page function of `injectMmidAttributes` (element.ts): reads the
persisted high-water mark from the body (−1 when absent), runs the element
loop, persists the final counter, and evaluates to it. -/
def injectMmidAttributesRun (d : Doc) : Doc × Int :=
  let id0 : Int := (d.lastMmidAttr).getD (-1)
  let (elems', idF) := injectLoop d.elems id0
  ({ d with elems := elems', lastMmidAttr := some idF }, idF)

/-- Mirrors `injectMmidAttributes` (element.ts): the exported wrapper returns
`last_mmid !== -1`, a Boolean — not the counter itself. -/
def injectMmidAttributes (d : Doc) : Doc × Bool :=
  let (d', last_mmid) := injectMmidAttributesRun d
  (d', last_mmid != -1)

/-! ## Cleanup (`dom/utils/element.ts`, `cleanupMmidAttributes`) -/

/-- Per-element body of the `cleanupMmidAttributes` loop (applied to each
element selected by `querySelectorAll('*[mmid]')`): remove `mmid`, clear the
inline outline, and when a truthy `orig-border` backup exists, write it into
the inline border and drop the backup attribute. -/
def cleanupElem (e : Elem) : Elem :=
  let e1 : Elem := { e with attrs := removeAttr e.attrs "mmid" }
  let e2 : Elem := { e1 with styleOutline := "" }
  match getAttr e2.attrs "orig-border" with
  | some ob =>
    if ob != "" then { e2 with styleBorder := ob, attrs := removeAttr e2.attrs "orig-border" }
    else e2
  | none => e2

/-- Mirrors `cleanupMmidAttributes` (element.ts): applies the cleanup body to every
element carrying an `mmid` attribute; the body-level `last-mmid` register is
untouched. -/
def cleanupMmidAttributes (d : Doc) : Doc :=
  { d with elems := d.elems.map (fun e => if (getAttr e.attrs "mmid").isSome then cleanupElem e else e) }

/-! ## DOM node tree (`dom/types/base.ts`, `dom/services/dom-info.ts`) -/

/-- One `{mmid, text, value, selected}` entry of a select node's `options`
array, as produced by `getElementInfo` (`option.getAttribute('mmid') || null`
is modelled by `none` on null or empty). -/
structure OptionInfo where
  mmid : Option String := none
  text : String := ""
  value : String := ""
  selected : Bool := false
deriving Repr, DecidableEq

/-- The scalar fields of a `DOMNode` object (interface in dom/types/base.ts
plus every key `Object.assign` can copy onto a node from
`ElementAttributes`). `none` models an absent/undefined property. The
TS property `class` is spelled `classAttr`; the hyphenated properties
`'aria-expanded'`, `'aria-selected'`, `'aria-checked'` read by `isInputNode`
are spelled with an `Attr` suffix (they are distinct from the camel-case
`ariaExpanded` key of `ElementAttributes` and are never written by this
code). -/
structure NodeInfo where
  role : Option String := none
  tag : Option String := none
  name : Option String := none
  mmid : Option String := none
  tag_type : Option String := none
  ariaLabel : Option String := none
  ariaDescription : Option String := none
  ariaKeyshortcuts : Option String := none
  ariaExpanded : Option Bool := none
  ariaHidden : Option Bool := none
  ariaDisabled : Option Bool := none
  classAttr : Option String := none
  has_svg : Option Bool := none
  innerText : Option String := none
  description : Option String := none
  category : Option String := none
  options : Option (List OptionInfo) := none
  is_clickable : Option Bool := none
  tabindex : Option String := none
  ariaExpandedAttr : Option String := none
  ariaSelectedAttr : Option String := none
  ariaCheckedAttr : Option String := none
  marked_for_deletion_by_mm : Bool := false
  marked_for_unravel_children : Bool := false
deriving Repr, DecidableEq

/-- A `DOMNode`: scalar fields plus the ordered `children` array. -/
inductive DOMNode where
  | mk (info : NodeInfo) (children : List DOMNode)

/-- The scalar fields of a node. -/
def DOMNode.info : DOMNode → NodeInfo
  | DOMNode.mk i _ => i

/-- The children of a node. -/
def DOMNode.children : DOMNode → List DOMNode
  | DOMNode.mk _ cs => cs

/-- Sets `node.marked_for_deletion_by_mm`. -/
def DOMNode.setMarked : DOMNode → Bool → DOMNode
  | DOMNode.mk i cs, b => DOMNode.mk { i with marked_for_deletion_by_mm := b } cs

/-- Replaces `node.children`. -/
def DOMNode.setChildren : DOMNode → List DOMNode → DOMNode
  | DOMNode.mk i _, cs => DOMNode.mk i cs

/-! ## Attribute extractor (`dom/services/dom-info.ts`, in-page helpers) -/

/-- The object literal built by `getElementInfo`. A `none` in an
always-present key means the key holds `undefined`; `tag_type`,
`description`, `category` and `options` are only ever added with defined
values, so for those `none` means the key is absent. -/
structure ElementAttributes where
  tag : String
  role : Option String := none
  ariaLabel : Option String := none
  ariaDescription : Option String := none
  ariaKeyshortcuts : Option String := none
  ariaExpanded : Option Bool := none
  ariaHidden : Option Bool := none
  ariaDisabled : Option Bool := none
  mmid : Option String := none
  classAttr : Option String := none
  has_svg : Bool := false
  innerText : Option String := none
  tag_type : Option String := none
  description : Option String := none
  category : Option String := none
  options : Option (List OptionInfo) := none
  is_clickable : Bool := false
deriving Repr, DecidableEq

/-- Mirrors the JS idiom `x || undefined` on a nullable string: an absent or
empty value becomes `undefined`. -/
def orUndef (o : Option String) : Option String :=
  match o with
  | some s => if s == "" then none else some s
  | none => none

/-- Mirrors `processInputElement` (dom-info.ts, in-page): description and category of
an `<input>`, keyed off `element.type` (always a string on a real input). -/
def processInputElement (e : Elem) : String × String :=
  let inputType := e.typeProp.getD ""
  let description := "Input type: " ++ inputType ++ ". "
  let category :=
    if ["text", "email", "tel", "url", "search"].contains inputType then "Text Input"
    else if inputType == "password" then "Password Input"
    else if inputType == "number" then "Number Input"
    else if inputType == "checkbox" then "Checkbox"
    else if inputType == "radio" then "Radio Button"
    else if inputType == "file" then "File Upload"
    else if inputType == "submit" then "Submit Button"
    else if inputType == "reset" then "Reset Button"
    else if inputType == "button" then "Generic Button"
    else inputType ++ " input"
  let description := description ++ "Category: " ++ category ++ ". "
  let description := if e.hasAttr "required" then description ++ "Required. " else description
  let description := if e.hasAttr "readonly" then description ++ "Read-only. " else description
  let description := if e.hasAttr "disabled" then description ++ "Disabled. " else description
  let description := if e.checked then description ++ "Checked. " else description
  let description :=
    if e.maxLength > 0 then description ++ "Max length: " ++ toString e.maxLength ++ ". "
    else description
  (description, category)

/-- Mirrors `processSelectElement` (dom-info.ts, in-page). -/
def processSelectElement (e : Elem) : String :=
  let description := "Options count: " ++ toString e.options.length ++ ". "
  if e.hasAttr "multiple" then description ++ "Multiple selection allowed. " else description

/-- JS word characters, as matched by the regex class `\w`. -/
def isWordChar (c : Char) : Bool :=
  c.isAlphanum || c == '_'

/-- Mirrors `new RegExp('\x5cb' + pattern + '\x5cb').test(s)` for the patterns
used by `isButtonLike` (`btn`, `button`), which consist of word characters
only: the pattern must occur with no word character immediately before or
after it. -/
def wholeWordMatch (pat s : String) : Bool :=
  let p := pat.toList
  let l := s.toList
  (List.range (l.length + 1)).any (fun i =>
    (l.drop i).take p.length == p &&
    (i == 0 || Option.all (fun c => !isWordChar c) (l.get? (i - 1))) &&
    Option.all (fun c => !isWordChar c) (l.get? (i + p.length)))

/-- Mirrors `isButtonLike` (dom-info.ts, in-page): the six-step button-likeness test.
The `role` argument is `attrs.role` as passed by `getElementInfo`. -/
def isButtonLike (e : Elem) (role : Option String) : Bool :=
  if role == some "button" then true
  else if (jsToLower e.tagName) == "button" then true
  else if (jsToLower e.tagName) == "input" &&
          (match e.typeProp with
           | some t => ["button", "submit", "reset"].contains t
           | none => false) then true
  else
    let hasStrongAriaButton :=
      (e.getAttribute "aria-pressed").isSome ||
      ((e.getAttribute "aria-expanded").isSome && e.hasAttr "aria-controls") ||
      (e.getAttribute "aria-haspopup" == some "true" && e.hasAttr "aria-controls")
    if hasStrongAriaButton then true
    else
      let classNames := (jsToLower e.className)
      let hasButtonClass := ["btn", "button"].any (fun pattern => wholeWordMatch pattern classNames)
      if hasButtonClass &&
         (e.onclickProp || (e.getAttribute "onclick").isSome || (e.getAttribute "tabindex").isSome) then true
      else
        let hasStrongInteractiveTraits :=
          e.getAttribute "role" == some "button" ||
          (e.getAttribute "tabindex" == some "0" && e.onclickProp) ||
          (e.cursor == "pointer" &&
            ((e.hasAttr "aria-label" && e.onclickProp) ||
             (e.hasAttr "title" && e.onclickProp)))
        if hasStrongInteractiveTraits then true
        else
          let hasNestedInteractiveContent :=
            e.hasIconElem &&
            (e.onclickProp &&
             e.cursor == "pointer" &&
             (e.hasAttr "aria-label" || e.hasAttr "title" ||
              e.getAttribute "role" == some "button") &&
             (e.userSelect == "none" ||
              e.getAttribute "tabindex" == some "0" ||
              e.backgroundColor != "transparent" ||
              e.computedBorder != "none"))
          if hasNestedInteractiveContent then true
          else
            let isControlElement :=
              e.hasAttr "aria-controls" &&
              e.hasAttr "aria-expanded" &&
              e.cursor == "pointer" &&
              (e.onclickProp || e.getAttribute "tabindex" == some "0")
            if isControlElement then true
            else false

/-- Mirrors `processButtonElement` (dom-info.ts, in-page): description and category
for a (possibly) button-like element; `('', 'Generic Button')` when the
button-likeness test fails. -/
def processButtonElement (e : Elem) (role : Option String) : String × String :=
  if isButtonLike e role then
    let category :=
      if e.getAttribute "type" == some "submit" then "Submit Button"
      else if e.getAttribute "type" == some "reset" then "Reset Button"
      else if (e.getAttribute "aria-pressed").isSome then "Toggle Button"
      else if (e.getAttribute "aria-expanded").isSome then "Expandable Button"
      else if e.getAttribute "aria-haspopup" == some "true" then "Popup Button"
      else if (jsToLower e.tagName) == "button" then "HTML Button"
      else if (jsToLower e.tagName) == "input" && e.typeProp == some "button" then "Input Button"
      else if e.getAttribute "role" == some "button" then "ARIA Button"
      else "Generic Button"
    let description :=
      match e.getAttribute "aria-pressed" with
      | some v => "State: " ++ (if v == "true" then "Pressed" else "Not pressed") ++ ". "
      | none => ""
    let description :=
      match e.getAttribute "aria-expanded" with
      | some v => description ++ "State: " ++ (if v == "true" then "Expanded" else "Collapsed") ++ ". "
      | none => description
    let description :=
      match e.getAttribute "aria-controls" with
      | some v => if v != "" then description ++ "Controls: " ++ v ++ ". " else description
      | none => description
    (description, category)
  else
    ("", "Generic Button")

/-- Mirrors `getElementInfo` (dom-info.ts, in-page): the full attribute record for one
element. The `instanceof HTMLInputElement` (etc.) tests are the tag tests for
an HTML document. -/
def getElementInfo (e : Elem) : ElementAttributes :=
  let base : ElementAttributes :=
    { tag := (jsToLower e.tagName)
      role := orUndef (e.getAttribute "role")
      ariaLabel := orUndef (e.getAttribute "aria-label")
      ariaDescription := orUndef (e.getAttribute "aria-description")
      ariaKeyshortcuts := orUndef (e.getAttribute "aria-keyshortcuts")
      ariaExpanded := if e.getAttribute "aria-expanded" == some "true" then some true else none
      ariaHidden := if e.getAttribute "aria-hidden" == some "true" then some true else none
      ariaDisabled := if e.getAttribute "aria-disabled" == some "true" then some true else none
      mmid := orUndef (e.getAttribute "mmid")
      classAttr := orUndef (some e.className)
      has_svg := e.hasSvg
      innerText := orUndef (some (jsTrim e.innerText)) }
  let withType : ElementAttributes :=
    if (jsToLower e.tagName) == "input" then
      let (description, category) := processInputElement e
      { base with
        tag_type := some (e.typeProp.getD "")
        description := some description
        category := some category }
    else if (jsToLower e.tagName) == "select" then
      { base with
        description := some (processSelectElement e)
        category := some "Select Dropdown"
        options := some (e.options.map (fun o =>
          { mmid := orUndef o.mmidAttr
            text := o.text
            value := o.value
            selected := o.selected })) }
    else if (jsToLower e.tagName) == "textarea" then
      { base with
        category := some "Text Area"
        description := some
          (if e.hasAttr "required" then "Required. "
           else if e.hasAttr "readonly" then "Read-only. "
           else "") }
    else
      let (description, category) := processButtonElement e base.role
      if description != "" then
        { base with description := some description, category := some category }
      else base
  { withType with
    is_clickable :=
      e.onclickProp ||
      e.cursor == "pointer" ||
      withType.role == some "button" ||
      e.hasAttr "tabindex" ||
      strIncludes (jsToLower e.className) "trigger" ||
      strIncludes (jsToLower e.className) "clickable" ||
      e.hasSvg ||
      (jsToLower e.tagName) == "button" ||
      (jsToLower e.tagName) == "a" ||
      withType.role == some "link" ||
      withType.role == some "tab" }

/-- The effect of `Object.assign(node, elementAttributes)`: every key present
in the literal overwrites the node's property (including explicit
`undefined`s); the conditionally-added keys (`tag_type`, `description`,
`category`, `options`) only overwrite when they were assigned. The node's
`name`, `children`, marker flags, `tabindex` and hyphenated aria properties
are not keys of the literal and survive. -/
def assignAttrs (i : NodeInfo) (ea : ElementAttributes) : NodeInfo :=
  { i with
    tag := some ea.tag
    role := ea.role
    ariaLabel := ea.ariaLabel
    ariaDescription := ea.ariaDescription
    ariaKeyshortcuts := ea.ariaKeyshortcuts
    ariaExpanded := ea.ariaExpanded
    ariaHidden := ea.ariaHidden
    ariaDisabled := ea.ariaDisabled
    mmid := ea.mmid
    classAttr := ea.classAttr
    has_svg := some ea.has_svg
    innerText := ea.innerText
    tag_type := match ea.tag_type with | some t => some t | none => i.tag_type
    description := match ea.description with | some v => some v | none => i.description
    category := match ea.category with | some v => some v | none => i.category
    options := match ea.options with | some v => some v | none => i.options
    is_clickable := some ea.is_clickable }

/-! ## Tree builder (`dom/services/dom-info.ts`) -/

/-- A page handle: the live document plus the failure behaviour of the three
`page.evaluate` boundaries of dom-info.ts (`some msg` = that evaluate call
throws `msg`). -/
structure Page where
  doc : Doc := {}
  injectEvalThrows : Option String := none
  rootEvalThrows : Option String := none
  nodeEvalThrows : Option String := none

/-- The in-page body of `injectMmidAttributes` (dom-info.ts): number every
element lacking an `mmid` attribute with `String(id++)` starting from 1;
elements already carrying the attribute are left untouched. -/
def injectAllLoop : List Elem → Int → List Elem
  | [], _ => []
  | e :: rest, id =>
    if e.hasAttr "mmid" then e :: injectAllLoop rest id
    else { e with attrs := setAttr e.attrs "mmid" (toString id) } :: injectAllLoop rest (id + 1)

/-- Mirrors `injectMmidAttributes` (dom-info.ts): runs the numbering pass over
`document.querySelectorAll('*')`; the body-level `last-mmid` register is
neither read nor written. -/
def injectMmidAttributesInfo (d : Doc) : Doc :=
  { d with elems := injectAllLoop d.elems 1 }

/-- The in-page part of `processDomNode`: resolve `[mmid="..."]` to the first
matching element and compute its attribute record; `none` when the selector
matches nothing (the evaluate returns `null`). -/
def processDomNodeQuery (p : Page) (sel : String) : Option ElementAttributes :=
  (p.doc.elems.find? (fun e => e.getAttribute "mmid" == some sel)).map getElementInfo

/-- Mirrors `processDomNode` (dom-info.ts), acting on the node's scalar fields: on a
throwing evaluate the error is caught and logged and the node is left as-is;
on a `null` result nothing is assigned; otherwise `Object.assign` copies the
attribute record onto the node. -/
def processDomNodeInfo (p : Page) (i : NodeInfo) : NodeInfo :=
  match p.nodeEvalThrows with
  | some _ => i
  | none =>
    match processDomNodeQuery p ((i.mmid).getD "") with
    | none => i
    | some ea => assignAttrs i ea

mutual
/-- Mirrors `processNode` (dom-info.ts): process the node itself when it carries a
truthy `mmid` other than `'0'`, then recurse into the children. -/
def processNode (p : Page) : DOMNode → DOMNode
  | DOMNode.mk i cs =>
    let i1 :=
      match i.mmid with
      | some m => if m != "" && m != "0" then processDomNodeInfo p i else i
      | none => i
    DOMNode.mk i1 (processNodeList p cs)

/-- The `for (const child of node.children)` loop of `processNode`. -/
def processNodeList (p : Page) : List DOMNode → List DOMNode
  | [] => []
  | c :: cs => processNode p c :: processNodeList p cs
end

/-- The roles accepted by `isInputNode` (dom-info.ts). -/
def inputNodeRoles : List String :=
  ["textbox", "button", "checkbox", "combobox", "listbox", "menuitem",
   "menuitemcheckbox", "menuitemradio", "option", "radio", "searchbox",
   "slider", "spinbutton", "switch", "tab"]

/-- Mirrors `isInputNode` (dom-info.ts): tag test, role test, then the truthiness of
`is_clickable`/`tabindex` and the presence of the hyphenated aria keys. -/
def isInputNode (node : DOMNode) : Bool :=
  let i := node.info
  if i.tag == some "input" || i.tag == some "select" ||
     i.tag == some "textarea" || i.tag == some "button" then true
  else if inputNodeRoles.contains ((i.role).getD "") then true
  else if (i.is_clickable).getD false ||
          (i.tabindex).getD "" != "" ||
          (i.ariaExpandedAttr).isSome ||
          (i.ariaSelectedAttr).isSome ||
          (i.ariaCheckedAttr).isSome then true
  else false

/-- Mirrors `pruneTree` (dom-info.ts), verbatim control flow: mark the node when
`onlyInputFields` holds and it is not an input node; filter out children
already carrying the deletion marker (the function never recurses into
them); possibly mark the node again when it lost all children; return `null`
(here `none`) when the node is marked. -/
def pruneTree (node : DOMNode) (onlyInputFields : Bool) : Option DOMNode :=
  let node :=
    if onlyInputFields && !isInputNode node then node.setMarked true else node
  let node :=
    if node.children.length > 0 then
      let node := node.setChildren
        (node.children.filter (fun child => !child.info.marked_for_deletion_by_mm))
      if node.children.length == 0 && onlyInputFields && !isInputNode node &&
         node.info.role != some "WebArea" then
        node.setMarked true
      else node
    else node
  if node.info.marked_for_deletion_by_mm then none else some node

/-- The `{ name: 'Empty node' }` literal of `processNodeForOutput`. -/
def emptyNodeInfo : NodeInfo := { name := some "Empty node" }

mutual
/-- The recursive part of `processNodeForOutput` on a non-null node: clone,
recurse into children (`filter(Boolean)` keeps every object), and delete the
internal marker properties. -/
def processNodeOut : DOMNode → DOMNode
  | DOMNode.mk i cs =>
    DOMNode.mk
      { i with marked_for_deletion_by_mm := false, marked_for_unravel_children := false }
      (processNodeOutList cs)

/-- The `children.map(processNodeForOutput)` step. -/
def processNodeOutList : List DOMNode → List DOMNode
  | [] => []
  | c :: cs => processNodeOut c :: processNodeOutList cs
end

/-- Mirrors `processNodeForOutput` (dom-info.ts): `{ name: 'Empty node' }` for a null
node, otherwise the cloned, marker-stripped node. -/
def processNodeForOutput : Option DOMNode → DOMNode
  | none => DOMNode.mk emptyNodeInfo []
  | some n => processNodeOut n

/-- The root-node literal built by `getDomInfo`'s second evaluate. -/
def rootNodeInfo (d : Doc) : NodeInfo :=
  { role := some "WebArea", tag := some "document", name := some d.title, mmid := some "0" }

/-- The body of `getDomInfo`'s `try` block, with the two uncaught
`page.evaluate` boundaries modelled as `Except` failures (`processDomNode`
failures are caught inside `processDomNode` itself and never reach here). -/
def getDomInfoTry (p : Page) (onlyInputFields : Bool) : Except String DOMNode :=
  match p.injectEvalThrows with
  | some msg => Except.error msg
  | none =>
    let p1 : Page := { p with doc := injectMmidAttributesInfo p.doc }
    match p.rootEvalThrows with
    | some msg => Except.error msg
    | none =>
      let rootNode : DOMNode := DOMNode.mk (rootNodeInfo p1.doc) []
      let processed := processNode p1 rootNode
      let prunedTree := pruneTree processed onlyInputFields
      Except.ok (processNodeForOutput prunedTree)

/-- The sentinel literal of `getDomInfo`'s `catch` branch. -/
def errorRootInfo : NodeInfo :=
  { role := some "WebArea", name := some "Error getting DOM info" }

/-- Mirrors `getDomInfo` (dom-info.ts): the whole pipeline, catching any error from
the uncaught evaluate boundaries and returning the sentinel root instead. -/
def getDomInfo (p : Page) (onlyInputFields : Bool) : DOMNode :=
  match getDomInfoTry p onlyInputFields with
  | Except.ok n => n
  | Except.error _ => DOMNode.mk errorRootInfo []

/-! ## Field reader (`dom/services/dom-field.ts`) -/

/-- The per-field record built by `getDomFields` (interface `DOMField`). -/
structure DOMField where
  type : String := ""
  value : Option String := none
  options : Option (List String) := none
  placeholder : String := ""
  required : Bool := false
  disabled : Bool := false
  readonly : Bool := false
  label : Option String := none
deriving Repr, DecidableEq

/-- A run of one or more spaces collapses to a single space. -/
def squeezeSpaces : List Char → List Char
  | [] => []
  | [c] => [c]
  | a :: b :: rest =>
    if a == ' ' && b == ' ' then squeezeSpaces (b :: rest)
    else a :: squeezeSpaces (b :: rest)

/-- Mirrors `text.replace(/\s+/g, ' ')`: every whitespace run becomes a
single space. -/
def jsNormalizeWs (s : String) : String :=
  String.mk (squeezeSpaces (s.toList.map (fun c => if c.isWhitespace then ' ' else c)))

/-- The per-element body of the `getDomFields` loop: the field record for one
`input`/`select`/`textarea` element. The surrounding document is needed for
the `label[for=...]` lookup. -/
def getDomFieldFor (d : Doc) (e : Elem) : DOMField :=
  let tag := (jsToLower e.tagName)
  let f : DOMField := { type := tag }
  let f :=
    if tag == "textarea" then
      let text := e.value
      { f with value := some (if text != "" then ((jsTrim (jsNormalizeWs text)).take 100) else "") }
    else if tag == "select" then
      { f with
        value := some (String.intercalate ", "
          ((e.options.filter (fun o => o.selected)).map (fun o => o.text)))
        options := some (e.options.map (fun o => o.text)) }
    else if tag == "input" then
      { f with
        type := (match e.typeProp with
                 | some t => if t == "" then "text" else t
                 | none => "text")
        value := some e.value }
    else f
  let f :=
    { f with
      placeholder := (e.getAttribute "placeholder").getD ""
      required := e.hasAttr "required"
      disabled := e.hasAttr "disabled"
      readonly := e.hasAttr "readonly" }
  match e.getAttribute "id" with
  | some id =>
    if id != "" then
      match d.elems.find? (fun l => (jsToLower l.tagName) == "label" && l.getAttribute "for" == some id) with
      | some label => { f with label := some (jsTrim label.textContent) }
      | none => f
    else f
  | none => f

/-- JS-object insertion: `dict[k] = v` overwrites in place or appends. -/
def storeField (dict : List (String × DOMField)) (k : String) (v : DOMField) :
    List (String × DOMField) :=
  if (dict.find? (fun p => p.1 == k)).isSome then
    dict.map (fun p => if p.1 == k then (k, v) else p)
  else
    dict ++ [(k, v)]

/-- Mirrors `getDomFields` (dom-field.ts): one flat pass over
`querySelectorAll('input, select, textarea')`, storing each field under its
truthy `mmid`. -/
def getDomFields (d : Doc) : List (String × DOMField) :=
  (d.elems.filter (fun e => ["input", "select", "textarea"].contains (jsToLower e.tagName))).foldl
    (fun dict e =>
      let field := getDomFieldFor d e
      match e.getAttribute "mmid" with
      | some m => if m != "" then storeField dict m field else dict
      | none => dict)
    []

/-- Dictionary lookup on the result of `getDomFields`. -/
def lookupField (dict : List (String × DOMField)) (k : String) : Option DOMField :=
  (dict.find? (fun p => p.1 == k)).map Prod.snd

/-! ## Attribute-map lemmas -/

theorem getAttr_cons (p : String × String) (a : Attrs) (k : String) :
    getAttr (p :: a) k = if p.1 == k then some p.2 else getAttr a k := by
  by_cases h : p.1 = k
  · have hb : (p.1 == k) = true := by simpa using h
    simp [getAttr, List.find?, hb]
  · have hb : (p.1 == k) = false := by simpa using h
    simp [getAttr, List.find?, hb]

theorem getAttr_setAttr_self (a : Attrs) (k v : String) :
    getAttr (setAttr a k v) k = some v := by
  induction a with
  | nil => simp [setAttr, getAttr_cons]
  | cons p rest ih =>
    by_cases h : p.1 = k
    · have hb : (p.1 == k) = true := by simpa using h
      simp [setAttr, hb, getAttr_cons]
    · have hb : (p.1 == k) = false := by simpa using h
      simp [setAttr, hb, getAttr_cons, ih]

theorem getAttr_setAttr_ne (a : Attrs) (k v k' : String) (h : k' ≠ k) :
    getAttr (setAttr a k v) k' = getAttr a k' := by
  have hkk : (k == k') = false := by simpa using (Ne.symm h)
  induction a with
  | nil => simp [setAttr, getAttr_cons, getAttr, hkk]
  | cons p rest ih =>
    by_cases hp : p.1 = k
    · have hb : (p.1 == k) = true := by simpa using hp
      simp [setAttr, hb, getAttr_cons, hp, hkk]
    · have hb : (p.1 == k) = false := by simpa using hp
      simp [setAttr, hb, getAttr_cons, ih]

theorem setAttr_of_getAttr_eq (a : Attrs) (k v : String) (h : getAttr a k = some v) :
    setAttr a k v = a := by
  induction a with
  | nil => simp [getAttr] at h
  | cons p rest ih =>
    rw [getAttr_cons] at h
    by_cases hp : p.1 = k
    · have hb : (p.1 == k) = true := by simpa using hp
      simp only [hb, if_true] at h
      obtain rfl : p.2 = v := by simpa using h
      simp [setAttr, hb, ← hp]
    · have hb : (p.1 == k) = false := by simpa using hp
      simp only [hb, if_false] at h
      simp [setAttr, hb, ih h]

theorem getAttr_removeAttr_self (a : Attrs) (k : String) :
    getAttr (removeAttr a k) k = none := by
  induction a with
  | nil => rfl
  | cons p rest ih =>
    by_cases hp : p.1 = k
    · have hb : (p.1 != k) = false := by simp [hp]
      simp only [removeAttr, List.filter_cons, hb, if_false]
      simpa [removeAttr] using ih
    · have hb : (p.1 != k) = true := by simp [hp]
      have hb2 : (p.1 == k) = false := by simpa using hp
      simp only [removeAttr, List.filter_cons, hb, if_true]
      rw [getAttr_cons]
      simp only [hb2, if_false]
      simpa [removeAttr] using ih

theorem getAttr_removeAttr_ne (a : Attrs) (k k' : String) (h : k' ≠ k) :
    getAttr (removeAttr a k) k' = getAttr a k' := by
  induction a with
  | nil => rfl
  | cons p rest ih =>
    by_cases hp : p.1 = k
    · have hb : (p.1 != k) = false := by simp [hp]
      have h1 : (p.1 == k') = false := by
        simp only [hp]
        simpa using (Ne.symm h)
      simp only [removeAttr, List.filter_cons, hb, if_false]
      rw [getAttr_cons]
      simp only [h1, if_false]
      simpa [removeAttr] using ih
    · have hb : (p.1 != k) = true := by simp [hp]
      simp only [removeAttr, List.filter_cons, hb, if_true]
      rw [getAttr_cons, getAttr_cons]
      by_cases hq : p.1 = k'
      · have hb2 : (p.1 == k') = true := by simpa using hq
        simp [hb2]
      · have hb2 : (p.1 == k') = false := by simpa using hq
        simp only [hb2, if_false]
        simpa [removeAttr] using ih

theorem removeAttr_setAttr (a : Attrs) (k v : String) :
    removeAttr (setAttr a k v) k = removeAttr a k := by
  induction a with
  | nil => simp [setAttr, removeAttr]
  | cons p rest ih =>
    by_cases hp : p.1 = k
    · have hb : (p.1 == k) = true := by simpa using hp
      have hb2 : (p.1 != k) = false := by simp [hp]
      simp [setAttr, hb, removeAttr, List.filter_cons, hb2]
    · have hb : (p.1 == k) = false := by simpa using hp
      simp only [removeAttr] at ih
      simp [setAttr, removeAttr, List.filter_cons, hb, hp, ih]

theorem removeAttr_of_getAttr_none (a : Attrs) (k : String) (h : getAttr a k = none) :
    removeAttr a k = a := by
  induction a with
  | nil => rfl
  | cons p rest ih =>
    rw [getAttr_cons] at h
    by_cases hp : p.1 = k
    · have hb : (p.1 == k) = true := by simpa using hp
      simp [hb] at h
    · have hb : (p.1 == k) = false := by simpa using hp
      have hb2 : (p.1 != k) = true := by simp [hp]
      simp only [hb, if_false] at h
      simp only [removeAttr, List.filter_cons, hb2, if_true]
      rw [show List.filter (fun q => q.1 != k) rest = removeAttr rest k from rfl, ih h]

theorem removeAttr_comm (a : Attrs) (k1 k2 : String) :
    removeAttr (removeAttr a k1) k2 = removeAttr (removeAttr a k2) k1 := by
  simp only [removeAttr, List.filter_filter]
  congr 1
  funext p
  rw [Bool.and_comm]

/-! ## Claim C6 — cursor rule of the interactivity classifier -/

/-- A plain `<div>` whose computed cursor is the (invalid) value `cursor`. -/
def cursorDiv : Elem := { tagName := "div", cursor := "cursor" }

/-- A plain `<div>` with a pointer cursor. -/
def pointerDiv : Elem := { tagName := "div", cursor := "pointer" }

/-- Claim C6, counterexample: `cursorDiv` fails rules 1–5 and its cursor is
none of pointer/grab/grabbing, yet `isElementInteractive` returns `true`,
because the source's rule-6 list also contains the literal string
`'cursor'`. -/
theorem claim_C6_counterexample :
    failsRulesOneToFive cursorDiv = true ∧
    (["pointer", "grab", "grabbing"].contains cursorDiv.cursor) = false ∧
    isElementInteractive cursorDiv = true :=
  ⟨by decide, by decide, by decide⟩

/-- Claim C6 (amended): for an element failing rules 1–5 of the decision
order, `isElementInteractive` returns true exactly when the computed cursor
is `pointer`, `cursor`, `grab` or `grabbing` — the source's rule-6 list
includes the stray value `'cursor'` in addition to the three the claim
names. -/
theorem claim_C6_amended (e : Elem) (h : failsRulesOneToFive e = true) :
    isElementInteractive e = (["pointer", "cursor", "grab", "grabbing"].contains e.cursor) := by
  unfold failsRulesOneToFive at h
  simp only [Bool.not_eq_true', Bool.or_eq_false_iff] at h
  obtain ⟨⟨⟨⟨h1, h2⟩, h3⟩, h4⟩, h5⟩ := h
  unfold isElementInteractive
  rw [h1, h2, h3, h4, h5]
  simp [ruleCursor]

/-- Claim C6 witness: the amended rule evaluated on the concrete
pointer-cursor div. -/
theorem claim_C6_witness :
    failsRulesOneToFive pointerDiv = true ∧
    isElementInteractive pointerDiv =
      (["pointer", "cursor", "grab", "grabbing"].contains pointerDiv.cursor) :=
  ⟨by decide, claim_C6_amended pointerDiv (by decide)⟩

/-! ## Claim C9 — error sentinel of the tree builder -/

/-- A page whose first in-page evaluation throws. -/
def failPage : Page := { injectEvalThrows := some "boom" }

/-- Claim C9: whenever the guarded body of the tree build fails (any uncaught
in-page evaluation throws), `getDomInfo` returns the sentinel root node
carrying the error message in its `name` instead of propagating the
exception. -/
theorem claim_C9 (p : Page) (o : Bool) (msg : String)
    (h : getDomInfoTry p o = Except.error msg) :
    getDomInfo p o = DOMNode.mk errorRootInfo [] := by
  unfold getDomInfo
  rw [h]

/-- Claim C9 witness: the sentinel on a concrete failing page. -/
theorem claim_C9_witness :
    getDomInfoTry failPage false = Except.error "boom" ∧
    getDomInfo failPage false = DOMNode.mk errorRootInfo [] :=
  ⟨rfl, claim_C9 failPage false "boom" rfl⟩

/-! ## Claim C1 — leaf set of the built tree -/

/-- A document holding a single plain `<button>` (interactive, not ignored). -/
def buttonElem : Elem := { tagName := "button" }

/-- The single-button document. -/
def buttonDoc : Doc := { elems := [buttonElem], title := "Button page" }

/-- The single-button page (no evaluate failures). -/
def buttonPage : Page := { doc := buttonDoc }

/-- Claim C1 (code bug): the button is interactive and not ignored, so the
claimed leaf set of `buildTree(doc, {onlyInputFields:false})` is the
one-element set holding the button; but the pipeline never mirrors the live
DOM into the root's children (the root literal is created with
`children: []` and nothing ever populates it), so the returned tree is the
bare root with no children, and in input-only mode even the root is pruned
away to the `Empty node` placeholder. -/
theorem claim_C1 :
    isElementInteractive buttonElem = true ∧
    injectSkips buttonElem = false ∧
    (getDomInfo buttonPage false) =
      DOMNode.mk { role := some "WebArea", tag := some "document",
                   name := some "Button page", mmid := some "0" } [] ∧
    (getDomInfo buttonPage true) = DOMNode.mk emptyNodeInfo [] :=
  ⟨by decide, by decide, rfl, rfl⟩

/-! ## Claim C7 — root presence under pruning -/

/-- A document holding a single `<iframe>` (an ignored tag). -/
def iframeElem : Elem := { tagName := "iframe" }

/-- The iframe-only document. -/
def iframeDoc : Doc := { elems := [iframeElem], title := "iframe page" }

/-- The iframe-only page. -/
def iframePage : Page := { doc := iframeDoc }

/-- Claim C7 (code bug): with `onlyInputFields:false` the returned tree is
the synthetic WebArea root with no children (this half of the claim holds);
but with `onlyInputFields:true` the initial marking step of `pruneTree` marks
the root itself for deletion (its own `role !== 'WebArea'` guard sits only in
the lost-all-children branch), so `getDomInfo` returns the
`{ name: 'Empty node' }` placeholder — a node that is not the WebArea root. -/
theorem claim_C7 :
    (getDomInfo iframePage false) =
      DOMNode.mk { role := some "WebArea", tag := some "document",
                   name := some "iframe page", mmid := some "0" } [] ∧
    (getDomInfo iframePage true) = DOMNode.mk emptyNodeInfo [] ∧
    (getDomInfo iframePage true).info.role = none ∧
    (getDomInfo iframePage true).info.name = some "Empty node" :=
  ⟨rfl, rfl, rfl, rfl⟩

/-! ## Claim C2 — return value of the identifier injector -/

/-- An element is newly tagged by the injector pass exactly when it is not
skipped and carries no truthy `mmid` attribute. -/
def needsNewMmid (e : Elem) : Bool :=
  !injectSkips e && !hasTruthyMmid e

theorem injectLoop_snd (es : List Elem) (id : Int) :
    (injectLoop es id).2 = id + (es.countP needsNewMmid : Nat) := by
  induction es generalizing id with
  | nil => simp [injectLoop]
  | cons e rest ih =>
    by_cases hs : injectSkips e = true
    · have hn : needsNewMmid e = false := by simp [needsNewMmid, hs]
      simp [injectLoop, hs, List.countP_cons, hn, ih]
    · have hs' : injectSkips e = false := by simpa using hs
      cases hm : getAttr e.attrs "mmid" with
      | none =>
        have hn : needsNewMmid e = true := by
          simp [needsNewMmid, hs', hasTruthyMmid, hm]
        simp only [injectLoop, hs', Bool.false_eq_true, if_false, hm]
        simp [List.countP_cons, hn, ih]
        ring
      | some s =>
        by_cases he : s = ""
        · subst he
          have hn : needsNewMmid e = true := by
            simp [needsNewMmid, hs', hasTruthyMmid, hm]
          simp only [injectLoop, hs', Bool.false_eq_true, if_false, hm]
          simp [List.countP_cons, hn, ih]
          ring
        · have hb : (s == "") = false := by simpa using he
          have hn : needsNewMmid e = false := by
            simp [needsNewMmid, hs', hasTruthyMmid, hm, he]
          simp only [injectLoop, hs', Bool.false_eq_true, if_false, hm, hb]
          simp [List.countP_cons, hn, ih]

/-- A document with two plain buttons. -/
def twoButtonsDoc : Doc := { elems := [buttonElem, buttonElem], title := "two buttons" }

/-- A plain decorative `<div>`. -/
def divElem : Elem := { tagName := "div" }

/-- A document holding only a non-interactive `<div>`. -/
def divOnlyDoc : Doc := { elems := [divElem], title := "div page" }

/-- Claim C2, counterexample: the exported `injectMmidAttributes` returns a
Boolean (`last_mmid !== -1`), not the highest identifier: the one-button and
two-button documents get different highest identifiers (0 and 1) from the
in-page pass, yet the exported function returns the same value for both; on
the no-eligible-element document the in-page counter is −1 but the function
returns `false`, not −1. -/
theorem claim_C2_counterexample :
    (injectMmidAttributes buttonDoc).2 = (injectMmidAttributes twoButtonsDoc).2 ∧
    (injectMmidAttributesRun buttonDoc).2 = 0 ∧
    (injectMmidAttributesRun twoButtonsDoc).2 = 1 ∧
    (injectMmidAttributesRun divOnlyDoc).2 = -1 ∧
    (injectMmidAttributes divOnlyDoc).2 = false :=
  ⟨by decide, by decide, by decide, by decide, by decide⟩

/-- Claim C2 (amended): the in-page pass computes the final counter — the
persisted high-water mark (−1 when absent) plus the number of newly tagged
eligible elements — and persists it on the document body; the exported
`injectMmidAttributes` returns the Boolean `last_mmid !== -1` (true iff the
final counter is not −1), so the soft-failure signal reaching the caller is
`false` rather than −1, and no exception is thrown (the function is total). -/
theorem claim_C2_amended (d : Doc) :
    (injectMmidAttributes d).1 = (injectMmidAttributesRun d).1 ∧
    (injectMmidAttributes d).2 = ((injectMmidAttributesRun d).2 != -1) ∧
    (injectMmidAttributesRun d).1.lastMmidAttr = some (injectMmidAttributesRun d).2 ∧
    (injectMmidAttributesRun d).2 =
      (d.lastMmidAttr.getD (-1)) + (d.elems.countP needsNewMmid : Nat) := by
  refine ⟨rfl, rfl, ?_, ?_⟩
  · show (injectMmidAttributesRun d).1.lastMmidAttr = some (injectMmidAttributesRun d).2
    unfold injectMmidAttributesRun
    rfl
  · show (injectMmidAttributesRun d).2 = _
    unfold injectMmidAttributesRun
    simpa using injectLoop_snd d.elems ((d.lastMmidAttr).getD (-1))

/-! ## Claim C10 — the number-everything injection of the tree builder -/

theorem injectAllLoop_length (es : List Elem) (id : Int) :
    (injectAllLoop es id).length = es.length := by
  induction es generalizing id with
  | nil => rfl
  | cons e rest ih =>
    by_cases h : e.hasAttr "mmid" = true
    · simp [injectAllLoop, h, ih]
    · have h' : e.hasAttr "mmid" = false := by simpa using h
      simp [injectAllLoop, h', ih]

theorem injectAllLoop_keeps (es : List Elem) (id : Int) :
    ∀ p ∈ (injectAllLoop es id).zip es, p.2.hasAttr "mmid" = true → p.1 = p.2 := by
  induction es generalizing id with
  | nil => intro p hp; simp [injectAllLoop] at hp
  | cons e rest ih =>
    intro p hp hmm
    by_cases h : e.hasAttr "mmid" = true
    · simp only [injectAllLoop, h, if_true, List.zip_cons_cons, List.mem_cons] at hp
      rcases hp with rfl | hp
      · rfl
      · exact ih id p hp hmm
    · have h' : e.hasAttr "mmid" = false := by simpa using h
      simp only [injectAllLoop, h', Bool.false_eq_true, if_false,
        List.zip_cons_cons, List.mem_cons] at hp
      rcases hp with rfl | hp
      · simp [h'] at hmm
      · exact ih (id + 1) p hp hmm

theorem injectAllLoop_covers (es : List Elem) (id : Int) :
    ∀ e' ∈ injectAllLoop es id, e'.hasAttr "mmid" = true := by
  induction es generalizing id with
  | nil => intro e' h; simp [injectAllLoop] at h
  | cons e rest ih =>
    intro e' h
    by_cases hc : e.hasAttr "mmid" = true
    · simp only [injectAllLoop, hc, if_true, List.mem_cons] at h
      rcases h with rfl | h
      · exact hc
      · exact ih id e' h
    · have h' : e.hasAttr "mmid" = false := by simpa using hc
      simp only [injectAllLoop, h', Bool.false_eq_true, if_false, List.mem_cons] at h
      rcases h with rfl | h
      · simp [Elem.hasAttr, getAttr_setAttr_self]
      · exact ih (id + 1) e' h

theorem injectAllLoop_newIds (es : List Elem) (id : Int) :
    (((injectAllLoop es id).zip es).filter (fun p => !p.2.hasAttr "mmid")).map
        (fun p => getAttr p.1.attrs "mmid") =
      (List.range (es.countP (fun e => !e.hasAttr "mmid"))).map
        (fun (i : Nat) => some (toString (id + (i : Int)))) := by
  induction es generalizing id with
  | nil => rfl
  | cons e rest ih =>
    by_cases h : e.hasAttr "mmid" = true
    · have hf : (!e.hasAttr "mmid") = false := by simp [h]
      simp only [injectAllLoop, h, if_true, List.zip_cons_cons, List.filter_cons, hf,
        Bool.not_true, Bool.false_eq_true, if_false, List.countP_cons]
      simpa [hf] using ih id
    · have h' : e.hasAttr "mmid" = false := by simpa using h
      have hf : (!e.hasAttr "mmid") = true := by simp [h']
      simp only [injectAllLoop, h', Bool.false_eq_true, if_false, List.zip_cons_cons,
        List.filter_cons, hf, Bool.not_false, if_true, List.map_cons, List.countP_cons]
      rw [List.range_succ_eq_map, List.map_cons, List.map_map]
      congr 1
      · simp [getAttr_setAttr_self]
      · rw [ih (id + 1)]
        congr 1
        funext i
        simp only [Function.comp_apply]
        congr 2
        push_cast
        ring

/-- Claim C10: the internal identifier-injection step of the tree builder
(dom-info.ts) tags every element of the document — elements already carrying
the attribute are left byte-for-byte untouched (never renumbered), every
other element (interactive or not, ignored or not) receives a fresh
identifier, the fresh identifiers are 1, 2, 3, … in document order, and the
persisted body-level high-water mark is neither read (the numbering is the
same for every value of the mark) nor written. -/
theorem claim_C10 (d : Doc) (m : Option Int) :
    ((injectMmidAttributesInfo d).elems.length = d.elems.length) ∧
    (∀ e' ∈ (injectMmidAttributesInfo d).elems, e'.hasAttr "mmid" = true) ∧
    (∀ p ∈ (injectMmidAttributesInfo d).elems.zip d.elems,
        p.2.hasAttr "mmid" = true → p.1 = p.2) ∧
    ((((injectMmidAttributesInfo d).elems.zip d.elems).filter
          (fun p => !p.2.hasAttr "mmid")).map (fun p => getAttr p.1.attrs "mmid") =
      (List.range (d.elems.countP (fun e => !e.hasAttr "mmid"))).map
        (fun (i : Nat) => some (toString ((1 : Int) + (i : Int))))) ∧
    ((injectMmidAttributesInfo { d with lastMmidAttr := m }).elems =
      (injectMmidAttributesInfo d).elems) ∧
    ((injectMmidAttributesInfo d).lastMmidAttr = d.lastMmidAttr) :=
  ⟨injectAllLoop_length d.elems 1,
   injectAllLoop_covers d.elems 1,
   injectAllLoop_keeps d.elems 1,
   injectAllLoop_newIds d.elems 1,
   rfl, rfl⟩

/-! ## Claim C8 — select fidelity of the field reader -/

theorem intercalate_singleton (x : String) : String.intercalate ", " [x] = x := rfl

theorem getDomFieldFor_select (d : Doc) (e : Elem) (h : jsToLower e.tagName = "select") :
    (getDomFieldFor d e).value =
      some (String.intercalate ", "
        ((e.options.filter (fun o => o.selected)).map (fun o => o.text))) ∧
    (getDomFieldFor d e).options = some (e.options.map (fun o => o.text)) := by
  unfold getDomFieldFor
  rw [h]
  simp only [show (("select" : String) == "textarea") = false from rfl, Bool.false_eq_true,
    if_false, show (("select" : String) == "select") = true from rfl, if_true]
  constructor <;>
  · split
    next =>
      split
      next =>
        split
        next => rfl
        next => rfl
      next => rfl
    next => rfl

/-- The first option of the test select. -/
def optOne : OptElem := { text := "One", value := "1" }

/-- The second (selected) option of the test select. -/
def optTwo : OptElem := { text := "Two", value := "2", selected := true }

/-- The third option of the test select. -/
def optThree : OptElem := { text := "Three", value := "3" }

/-- A `<select>` carrying identifier 7 with three options, the second
selected. -/
def selElem : Elem :=
  { tagName := "select", attrs := [("mmid", "7")], options := [optOne, optTwo, optThree] }

/-- The document holding the test select. -/
def selDoc : Doc := { elems := [selElem], title := "select page" }

/-- Claim C8: for a document whose single element is a `<select>` carrying an
identifier, with three options of which the second is selected, `getFields`
returns a record under that identifier whose `value` is the second option's
text and whose `options` are the three option texts in document order; and in
general a select's `value` is the comma-joined (separator `', '`) texts of
its currently selected options and its `options` are all option texts in
order. -/
theorem claim_C8 :
    (∀ (d : Doc) (e : Elem) (m : String) (o1 o2 o3 : OptElem),
        d.elems = [e] → jsToLower e.tagName = "select" →
        e.getAttribute "mmid" = some m → m ≠ "" →
        e.options = [o1, o2, o3] →
        o1.selected = false → o2.selected = true → o3.selected = false →
        lookupField (getDomFields d) m = some (getDomFieldFor d e) ∧
        (getDomFieldFor d e).value = some o2.text ∧
        (getDomFieldFor d e).options = some [o1.text, o2.text, o3.text]) ∧
    (∀ (d : Doc) (e : Elem), jsToLower e.tagName = "select" →
        (getDomFieldFor d e).value =
          some (String.intercalate ", "
            ((e.options.filter (fun o => o.selected)).map (fun o => o.text))) ∧
        (getDomFieldFor d e).options = some (e.options.map (fun o => o.text))) := by
  constructor
  · intro d e m o1 o2 o3 hd htag hm hm' hopts h1 h2 h3
    have hmb : (m != "") = true := by simpa using hm'
    refine ⟨?_, ?_, ?_⟩
    · unfold getDomFields
      rw [hd]
      simp only [List.filter_cons, List.filter_nil, htag,
        show (["input", "select", "textarea"].contains ("select" : String)) = true from rfl,
        if_true, List.foldl_cons, List.foldl_nil, hm, hmb]
      have hd' : ({ d with elems := [e] } : Doc) = d := by
        cases d
        simp_all
      unfold storeField lookupField
      simp [List.find?]
    · rw [(getDomFieldFor_select d e htag).1, hopts]
      simp only [List.filter_cons, h1, h2, h3, Bool.false_eq_true, if_false, if_true,
        List.filter_nil, List.map_cons, List.map_nil]
      rw [intercalate_singleton]
    · rw [(getDomFieldFor_select d e htag).2, hopts]
      simp
  · intro d e htag
    exact getDomFieldFor_select d e htag

/-- Claim C8 witness: the three-option select evaluated concretely. -/
theorem claim_C8_witness :
    lookupField (getDomFields selDoc) "7" = some (getDomFieldFor selDoc selElem) ∧
    (getDomFieldFor selDoc selElem).value = some "Two" ∧
    (getDomFieldFor selDoc selElem).options = some ["One", "Two", "Three"] :=
  claim_C8.1 selDoc selElem "7" optOne optTwo optThree rfl (by decide) rfl
    (by decide) rfl rfl rfl rfl

/-! ## Claim C3 — round-trip cleanliness -/

/-- The state of one element after an inject/cleanup round trip, as the code
actually leaves it (assuming no stale `orig-border` backup): an eligible
element loses its `mmid`, has its inline outline cleared, and its inline
border becomes its former *outline* when that was nonempty — otherwise the
debug border stays; an ineligible element carrying a (stale) `mmid` loses it
and its outline; any other element is untouched. -/
def postRoundTrip (e : Elem) : Elem :=
  if !injectSkips e then
    { e with attrs := removeAttr e.attrs "mmid",
             styleOutline := "",
             styleBorder := if e.styleOutline != "" then e.styleOutline else debugBorder }
  else if (getAttr e.attrs "mmid").isSome then
    { e with attrs := removeAttr e.attrs "mmid", styleOutline := "" }
  else e

theorem cleanupElem_no_backup (e : Elem) (h : getAttr e.attrs "orig-border" = none) :
    cleanupElem e = { e with attrs := removeAttr e.attrs "mmid", styleOutline := "" } := by
  unfold cleanupElem
  have h1 : getAttr (removeAttr e.attrs "mmid") "orig-border" = none := by
    rw [getAttr_removeAttr_ne _ _ _ (by decide)]
    exact h
  simp only [h1]

theorem getAttr_injectTag_mmid (e : Elem) (v : String) :
    getAttr (injectTag e v).attrs "mmid" = some v := by
  unfold injectTag
  by_cases ho : e.styleOutline = ""
  · have hob : (e.styleOutline != "") = false := by simp [ho]
    simp only [hob, Bool.false_eq_true, if_false]
    exact getAttr_setAttr_self e.attrs "mmid" v
  · have hob : (e.styleOutline != "") = true := by simp [ho]
    simp only [hob, if_true]
    rw [getAttr_setAttr_ne _ _ _ _ (by decide)]
    exact getAttr_setAttr_self e.attrs "mmid" v

theorem cleanup_injectTag (e : Elem) (v : String)
    (h : getAttr e.attrs "orig-border" = none) :
    cleanupElem (injectTag e v) =
      { e with attrs := removeAttr e.attrs "mmid",
               styleOutline := "",
               styleBorder := if e.styleOutline != "" then e.styleOutline else debugBorder } := by
  by_cases ho : e.styleOutline = ""
  · have hob : (e.styleOutline != "") = false := by simp [ho]
    unfold injectTag
    simp only [hob, Bool.false_eq_true, if_false]
    rw [cleanupElem_no_backup]
    · simp only [removeAttr_setAttr]
    · rw [getAttr_setAttr_ne _ _ _ _ (by decide)]
      exact h
  · have hob : (e.styleOutline != "") = true := by simp [ho]
    unfold injectTag cleanupElem
    simp only [hob, if_true]
    have h1 : getAttr (removeAttr (setAttr (setAttr e.attrs "mmid" v) "orig-border"
        e.styleOutline) "mmid") "orig-border" = some e.styleOutline := by
      rw [getAttr_removeAttr_ne _ _ _ (by decide)]
      exact getAttr_setAttr_self _ _ _
    simp only [h1, hob, if_true]
    have h2 : removeAttr (removeAttr (setAttr (setAttr e.attrs "mmid" v) "orig-border"
        e.styleOutline) "mmid") "orig-border" = removeAttr e.attrs "mmid" := by
      rw [removeAttr_comm, removeAttr_setAttr,
        removeAttr_of_getAttr_none (setAttr e.attrs "mmid" v) "orig-border"
          (by rw [getAttr_setAttr_ne _ _ _ _ (by decide)]; exact h),
        removeAttr_setAttr]
    simp only [h2]

theorem cleanup_injectLoop (es : List Elem) (id : Int)
    (h : ∀ e ∈ es, getAttr e.attrs "orig-border" = none) :
    ((injectLoop es id).1).map
        (fun e => if (getAttr e.attrs "mmid").isSome then cleanupElem e else e) =
      es.map postRoundTrip := by
  induction es generalizing id with
  | nil => rfl
  | cons e rest ih =>
    have he := h e (by simp)
    have hrest : ∀ x ∈ rest, getAttr x.attrs "orig-border" = none := by
      intro x hx; exact h x (by simp [hx])
    by_cases hs : injectSkips e = true
    · simp only [injectLoop, hs, if_true, List.map_cons]
      rw [ih id hrest]
      congr 1
      unfold postRoundTrip
      simp only [hs, Bool.not_true, Bool.false_eq_true, if_false]
      by_cases hm : (getAttr e.attrs "mmid").isSome
      · simp only [hm, if_true]
        exact cleanupElem_no_backup e he
      · have hm' : (getAttr e.attrs "mmid").isSome = false := by simpa using hm
        simp only [hm', Bool.false_eq_true, if_false]
    · have hs' : injectSkips e = false := by simpa using hs
      simp only [injectLoop, hs', Bool.false_eq_true, if_false]
      cases hmm : getAttr e.attrs "mmid" with
      | none =>
        simp only [List.map_cons]
        congr 1
        · rw [if_pos (by rw [getAttr_injectTag_mmid]; rfl)]
          rw [cleanup_injectTag e _ he]
          unfold postRoundTrip
          simp [hs']
        · exact ih (id + 1) hrest
      | some s =>
        by_cases hse : s = ""
        · subst hse
          simp only [show (("" : String) == "") = true from rfl, if_true, List.map_cons]
          congr 1
          · rw [if_pos (by rw [getAttr_injectTag_mmid]; rfl)]
            rw [cleanup_injectTag e _ he]
            unfold postRoundTrip
            simp [hs']
          · exact ih (id + 1) hrest
        · have hsb : (s == "") = false := by simpa using hse
          simp only [hsb, Bool.false_eq_true, if_false, List.map_cons]
          congr 1
          · rw [if_pos (by rw [getAttr_injectTag_mmid]; rfl)]
            rw [cleanup_injectTag e _ he]
            unfold postRoundTrip
            simp [hs']
          · exact ih id hrest

theorem getAttr_postRoundTrip_mmid (e : Elem) :
    getAttr (postRoundTrip e).attrs "mmid" = none := by
  unfold postRoundTrip
  by_cases hs : injectSkips e = true
  · simp only [hs, Bool.not_true, Bool.false_eq_true, if_false]
    by_cases hm : (getAttr e.attrs "mmid").isSome
    · simp only [hm, if_true]
      exact getAttr_removeAttr_self _ _
    · have hm' : (getAttr e.attrs "mmid").isSome = false := by simpa using hm
      simp only [hm', Bool.false_eq_true, if_false]
      simpa using hm'
  · have hs' : injectSkips e = false := by simpa using hs
    simp only [hs', Bool.not_false, if_true]
    exact getAttr_removeAttr_self _ _

/-- A `<button>` with a prior inline border and no outline. -/
def borderBtn : Elem := { tagName := "button", styleBorder := "1px solid red" }

/-- The document holding `borderBtn`. -/
def borderDoc : Doc := { elems := [borderBtn], title := "border page" }

/-- Claim C3, counterexample: the button's prior inline border
`1px solid red` is NOT restored after cleanup-after-inject — injection backs
up the *outline* (empty here, so nothing is backed up) while overwriting the
*border*, and cleanup restores only from that backup, so the debug border
remains. -/
theorem claim_C3_counterexample :
    borderBtn.styleBorder = "1px solid red" ∧
    ((cleanupMmidAttributes (injectMmidAttributes borderDoc).1).elems.map
        Elem.styleBorder) = ["2px solid #3498db"] :=
  ⟨by decide, by decide⟩

/-- Claim C3 (amended): on a document with no stale `orig-border` backups,
cleanup after inject leaves zero elements carrying the identifier attribute;
but instead of restoring the prior inline *border* byte-for-byte, each
element the injector tagged ends with its inline outline cleared and its
inline border equal to its former *outline* when that was nonempty — when the
former outline was empty the debug border `2px solid #3498db` remains, even
if the element had a different (or no) border before; ineligible elements
that carried a stale identifier lose it and their outline, and all other
elements are untouched. -/
theorem claim_C3_amended (d : Doc)
    (h : ∀ e ∈ d.elems, getAttr e.attrs "orig-border" = none) :
    (cleanupMmidAttributes (injectMmidAttributes d).1).elems = d.elems.map postRoundTrip ∧
    ∀ e' ∈ (cleanupMmidAttributes (injectMmidAttributes d).1).elems,
      getAttr e'.attrs "mmid" = none := by
  have key : (cleanupMmidAttributes (injectMmidAttributes d).1).elems =
      d.elems.map postRoundTrip := by
    show ((injectMmidAttributesRun d).1.elems).map _ = _
    unfold injectMmidAttributesRun
    exact cleanup_injectLoop d.elems ((d.lastMmidAttr).getD (-1)) h
  refine ⟨key, ?_⟩
  rw [key]
  intro e' he'
  rw [List.mem_map] at he'
  obtain ⟨e, _, rfl⟩ := he'
  exact getAttr_postRoundTrip_mmid e

/-- A `<button>` with a prior inline outline and no border. -/
def outlineBtn : Elem := { tagName := "button", styleOutline := "dotted" }

/-- The witness document for the round-trip theorem. -/
def roundTripDoc : Doc := { elems := [outlineBtn, divElem], title := "round trip" }

/-- Claim C3 witness: the amended round-trip account evaluated on a concrete
document (an outlined button plus a decorative div). -/
theorem claim_C3_witness :
    (∀ e ∈ roundTripDoc.elems, getAttr e.attrs "orig-border" = none) ∧
    ((cleanupMmidAttributes (injectMmidAttributes roundTripDoc).1).elems =
        roundTripDoc.elems.map postRoundTrip ∧
      ∀ e' ∈ (cleanupMmidAttributes (injectMmidAttributes roundTripDoc).1).elems,
        getAttr e'.attrs "mmid" = none) :=
  ⟨by decide, claim_C3_amended roundTripDoc (by decide)⟩

/-! ## Claim C4 — idempotence of injection -/

theorem toDigitsCore_len_ge (b f : Nat) :
    ∀ (n : Nat) (l : List Char), l.length ≤ (Nat.toDigitsCore b f n l).length := by
  induction f with
  | zero => intro n l; simp [Nat.toDigitsCore]
  | succ f ih =>
    intro n l
    simp only [Nat.toDigitsCore]
    by_cases h : n / b = 0
    · simp [h]
    · simp only [h, if_false]
      calc l.length ≤ (Nat.digitChar (n % b) :: l).length := by simp
        _ ≤ _ := ih (n / b) (Nat.digitChar (n % b) :: l)

theorem nat_repr_len_pos (n : Nat) : 1 ≤ (Nat.repr n).length := by
  show 1 ≤ (Nat.toDigits 10 n).asString.length
  have hlen : (Nat.toDigits 10 n).asString.length = (Nat.toDigits 10 n).length := rfl
  rw [hlen]
  show 1 ≤ (Nat.toDigitsCore 10 (n + 1) n []).length
  simp only [Nat.toDigitsCore]
  by_cases h : n / 10 = 0
  · simp [h]
  · simp only [h, if_false]
    calc 1 = [Nat.digitChar (n % 10)].length := rfl
      _ ≤ _ := toDigitsCore_len_ge 10 n (n / 10) [Nat.digitChar (n % 10)]

theorem toString_int_ne_empty (i : Int) : toString i ≠ "" := by
  cases i with
  | ofNat m =>
    show Nat.repr m ≠ ""
    intro hc
    have h := nat_repr_len_pos m
    rw [hc] at h
    exact absurd h (by decide)
  | negSucc m =>
    show ("-" ++ Nat.repr (m + 1)) ≠ ""
    intro hc
    have h := congrArg String.length hc
    rw [String.length_append] at h
    have h1 := nat_repr_len_pos (m + 1)
    have h2 : String.length "-" = 1 := rfl
    have h3 : String.length "" = 0 := rfl
    omega

theorem setAttr_setAttr (a : Attrs) (k v v' : String) :
    setAttr (setAttr a k v) k v' = setAttr a k v' := by
  induction a with
  | nil => simp [setAttr]
  | cons p rest ih =>
    by_cases hp : p.1 = k
    · have hb : (p.1 == k) = true := by simpa using hp
      simp [setAttr, hb]
    · have hb : (p.1 == k) = false := by simpa using hp
      simp [setAttr, hb, ih]

theorem injectTag_tagName (e : Elem) (v : String) :
    (injectTag e v).tagName = e.tagName := by
  simp only [injectTag]; split <;> rfl

theorem injectTag_typeProp (e : Elem) (v : String) :
    (injectTag e v).typeProp = e.typeProp := by
  simp only [injectTag]; split <;> rfl

theorem injectTag_cursor (e : Elem) (v : String) :
    (injectTag e v).cursor = e.cursor := by
  simp only [injectTag]; split <;> rfl

theorem injectTag_styleOutline (e : Elem) (v : String) :
    (injectTag e v).styleOutline = e.styleOutline := by
  simp only [injectTag]; split <;> rfl

theorem getAttr_injectTag_ne (e : Elem) (v k : String)
    (h1 : k ≠ "mmid") (h2 : k ≠ "orig-border") :
    getAttr (injectTag e v).attrs k = getAttr e.attrs k := by
  simp only [injectTag]
  split
  · show getAttr (setAttr (setAttr e.attrs "mmid" v) "orig-border" e.styleOutline) k =
      getAttr e.attrs k
    rw [getAttr_setAttr_ne _ _ _ _ h2, getAttr_setAttr_ne _ _ _ _ h1]
  · show getAttr (setAttr e.attrs "mmid" v) k = getAttr e.attrs k
    rw [getAttr_setAttr_ne _ _ _ _ h1]

theorem getAttribute_injectTag_ne (e : Elem) (v k : String)
    (h1 : k ≠ "mmid") (h2 : k ≠ "orig-border") :
    (injectTag e v).getAttribute k = e.getAttribute k := by
  unfold Elem.getAttribute
  exact getAttr_injectTag_ne e v k h1 h2

theorem hasAttr_injectTag_ne (e : Elem) (v k : String)
    (h1 : k ≠ "mmid") (h2 : k ≠ "orig-border") :
    (injectTag e v).hasAttr k = e.hasAttr k := by
  unfold Elem.hasAttr
  rw [getAttr_injectTag_ne e v k h1 h2]

theorem ruleTagInteractive_injectTag (e : Elem) (v : String) :
    ruleTagInteractive (injectTag e v) = ruleTagInteractive e := by
  unfold ruleTagInteractive
  rw [injectTag_tagName]

theorem ruleInputType_injectTag (e : Elem) (v : String) :
    ruleInputType (injectTag e v) = ruleInputType e := by
  unfold ruleInputType
  rw [injectTag_tagName, injectTag_typeProp]

theorem ruleAriaRole_injectTag (e : Elem) (v : String) :
    ruleAriaRole (injectTag e v) = ruleAriaRole e := by
  unfold ruleAriaRole
  rw [getAttribute_injectTag_ne e v "role" (by decide) (by decide)]

theorem ruleTabindex_injectTag (e : Elem) (v : String) :
    ruleTabindex (injectTag e v) = ruleTabindex e := by
  unfold ruleTabindex
  rw [hasAttr_injectTag_ne e v "tabindex" (by decide) (by decide),
    getAttribute_injectTag_ne e v "tabindex" (by decide) (by decide)]

theorem ruleInlineHandler_injectTag (e : Elem) (v : String) :
    ruleInlineHandler (injectTag e v) = ruleInlineHandler e := by
  unfold ruleInlineHandler interactiveEvents
  simp only [List.any_cons, List.any_nil]
  rw [hasAttr_injectTag_ne e v ("on" ++ "click") (by decide) (by decide),
    hasAttr_injectTag_ne e v ("on" ++ "mousedown") (by decide) (by decide),
    hasAttr_injectTag_ne e v ("on" ++ "mouseup") (by decide) (by decide),
    hasAttr_injectTag_ne e v ("on" ++ "touchstart") (by decide) (by decide),
    hasAttr_injectTag_ne e v ("on" ++ "touchend") (by decide) (by decide),
    hasAttr_injectTag_ne e v ("on" ++ "keydown") (by decide) (by decide),
    hasAttr_injectTag_ne e v ("on" ++ "keyup") (by decide) (by decide)]

theorem ruleCursor_injectTag (e : Elem) (v : String) :
    ruleCursor (injectTag e v) = ruleCursor e := by
  unfold ruleCursor
  rw [injectTag_cursor]

theorem isElementInteractive_injectTag (e : Elem) (v : String) :
    isElementInteractive (injectTag e v) = isElementInteractive e := by
  unfold isElementInteractive
  rw [ruleTagInteractive_injectTag, ruleInputType_injectTag, ruleAriaRole_injectTag,
    ruleTabindex_injectTag, ruleInlineHandler_injectTag, ruleCursor_injectTag]

theorem idProp_injectTag (e : Elem) (v : String) :
    (injectTag e v).idProp = e.idProp := by
  unfold Elem.idProp
  rw [getAttr_injectTag_ne e v "id" (by decide) (by decide)]

theorem injectSkips_injectTag (e : Elem) (v : String) :
    injectSkips (injectTag e v) = injectSkips e := by
  unfold injectSkips
  rw [injectTag_tagName, idProp_injectTag, isElementInteractive_injectTag]

theorem injectTag_idem (e : Elem) (v : String) :
    injectTag (injectTag e v) v = injectTag e v := by
  by_cases ho : e.styleOutline = ""
  · have hob : (e.styleOutline != "") = false := by simp [ho]
    obtain ⟨t, a, tp, cn, it, tc, val, ch, ml, op, oc, hsv, hic, sb, so, cur, us, bg, cb⟩ := e
    simp only at ho
    subst ho
    simp [injectTag, setAttr_setAttr]
  · have hob : (e.styleOutline != "") = true := by simp [ho]
    obtain ⟨t, a, tp, cn, it, tc, val, ch, ml, op, oc, hsv, hic, sb, so, cur, us, bg, cb⟩ := e
    simp only at hob ho
    simp only [injectTag, hob, if_true]
    have h1 : setAttr (setAttr (setAttr (setAttr a "mmid" v) "orig-border" so) "mmid" v)
        "orig-border" so = setAttr (setAttr a "mmid" v) "orig-border" so := by
      rw [setAttr_of_getAttr_eq (setAttr (setAttr a "mmid" v) "orig-border" so) "mmid" v
          (by rw [getAttr_setAttr_ne _ _ _ _ (by decide)]
              exact getAttr_setAttr_self _ _ _),
        setAttr_of_getAttr_eq (setAttr (setAttr a "mmid" v) "orig-border" so) "orig-border" so
          (getAttr_setAttr_self (setAttr a "mmid" v) "orig-border" so)]
    simp [h1]

theorem injectLoop_twice (es : List Elem) (id j : Int) :
    injectLoop ((injectLoop es id).1) j = ((injectLoop es id).1, j) := by
  induction es generalizing id j with
  | nil => rfl
  | cons e rest ih =>
    by_cases hs : injectSkips e = true
    · simp only [injectLoop, hs, if_true, ih id j]
    · have hs' : injectSkips e = false := by simpa using hs
      cases hm : getAttr e.attrs "mmid" with
      | none =>
        simp only [injectLoop, hs', Bool.false_eq_true, if_false, hm]
        have hskip2 : injectSkips (injectTag e (toString (id + 1))) = false := by
          rw [injectSkips_injectTag]; exact hs'
        have hmm2 : getAttr (injectTag e (toString (id + 1))).attrs "mmid" =
            some (toString (id + 1)) := getAttr_injectTag_mmid _ _
        have hne : (toString (id + 1) == "") = false := by
          simpa using toString_int_ne_empty (id + 1)
        simp only [injectLoop, hskip2, Bool.false_eq_true, if_false, hmm2, hne,
          injectTag_idem, ih (id + 1) j]
      | some s =>
        by_cases hse : s = ""
        · subst hse
          simp only [injectLoop, hs', Bool.false_eq_true, if_false, hm,
            show (("" : String) == "") = true from rfl, if_true]
          have hskip2 : injectSkips (injectTag e (toString (id + 1))) = false := by
            rw [injectSkips_injectTag]; exact hs'
          have hmm2 : getAttr (injectTag e (toString (id + 1))).attrs "mmid" =
              some (toString (id + 1)) := getAttr_injectTag_mmid _ _
          have hne : (toString (id + 1) == "") = false := by
            simpa using toString_int_ne_empty (id + 1)
          simp only [injectLoop, hskip2, Bool.false_eq_true, if_false, hmm2, hne,
            injectTag_idem, ih (id + 1) j]
        · have hsb : (s == "") = false := by simpa using hse
          simp only [injectLoop, hs', Bool.false_eq_true, if_false, hm, hsb]
          have hskip2 : injectSkips (injectTag e s) = false := by
            rw [injectSkips_injectTag]; exact hs'
          have hmm2 : getAttr (injectTag e s).attrs "mmid" = some s :=
            getAttr_injectTag_mmid _ _
          simp only [injectLoop, hskip2, Bool.false_eq_true, if_false, hmm2, hsb,
            injectTag_idem, ih id j]

theorem injectLoop_keeps_existing (es : List Elem) (id : Int) :
    ∀ p ∈ ((injectLoop es id).1).zip es, hasTruthyMmid p.2 = true →
      getAttr p.1.attrs "mmid" = getAttr p.2.attrs "mmid" := by
  induction es generalizing id with
  | nil => intro p hp; simp [injectLoop] at hp
  | cons e rest ih =>
    intro p hp htr
    by_cases hs : injectSkips e = true
    · simp only [injectLoop, hs, if_true, List.zip_cons_cons, List.mem_cons] at hp
      rcases hp with rfl | hp
      · rfl
      · exact ih id p hp htr
    · have hs' : injectSkips e = false := by simpa using hs
      cases hm : getAttr e.attrs "mmid" with
      | none =>
        simp only [injectLoop, hs', Bool.false_eq_true, if_false, hm,
          List.zip_cons_cons, List.mem_cons] at hp
        rcases hp with rfl | hp
        · unfold hasTruthyMmid at htr
          rw [hm] at htr
          exact absurd htr (by decide)
        · exact ih (id + 1) p hp htr
      | some s =>
        by_cases hse : s = ""
        · subst hse
          simp only [injectLoop, hs', Bool.false_eq_true, if_false, hm,
            show (("" : String) == "") = true from rfl, if_true,
            List.zip_cons_cons, List.mem_cons] at hp
          rcases hp with rfl | hp
          · unfold hasTruthyMmid at htr
            rw [hm] at htr
            exact absurd htr (by decide)
          · exact ih (id + 1) p hp htr
        · have hsb : (s == "") = false := by simpa using hse
          simp only [injectLoop, hs', Bool.false_eq_true, if_false, hm, hsb,
            List.zip_cons_cons, List.mem_cons] at hp
          rcases hp with rfl | hp
          · rw [getAttr_injectTag_mmid, hm]
          · exact ih id p hp htr

/-- Claim C4: calling the injector twice in a row with no DOM mutation in
between is a no-op the second time — the whole second run (document state and
computed counter) equals the first run's result, so no new identifiers are
assigned and both calls return the same value; moreover the first pass never
renumbers an element that already carries a truthy identifier. -/
theorem injectMmidAttributesRun_eq (d : Doc) :
    injectMmidAttributesRun d =
      ({ d with elems := (injectLoop d.elems ((d.lastMmidAttr).getD (-1))).1,
                lastMmidAttr := some (injectLoop d.elems ((d.lastMmidAttr).getD (-1))).2 },
        (injectLoop d.elems ((d.lastMmidAttr).getD (-1))).2) := rfl

theorem claim_C4 (d : Doc) :
    injectMmidAttributesRun ((injectMmidAttributesRun d).1) = injectMmidAttributesRun d ∧
    (injectMmidAttributes ((injectMmidAttributes d).1)).2 = (injectMmidAttributes d).2 ∧
    (∀ p ∈ (((injectMmidAttributesRun d).1).elems).zip d.elems,
        hasTruthyMmid p.2 = true →
        getAttr p.1.attrs "mmid" = getAttr p.2.attrs "mmid") := by
  have h2 := injectLoop_twice d.elems ((d.lastMmidAttr).getD (-1))
      ((injectLoop d.elems ((d.lastMmidAttr).getD (-1))).2)
  have key : injectMmidAttributesRun ((injectMmidAttributesRun d).1) =
      injectMmidAttributesRun d := by
    rw [injectMmidAttributesRun_eq d, injectMmidAttributesRun_eq]
    simp [h2]
  refine ⟨key, ?_, ?_⟩
  · show ((injectMmidAttributesRun ((injectMmidAttributesRun d).1)).2 != -1) =
        ((injectMmidAttributesRun d).2 != -1)
    rw [key]
  · exact injectLoop_keeps_existing d.elems ((d.lastMmidAttr).getD (-1))

/-! ## Claim C5 — monotone, never-reused identifiers -/

/-- The identifier values freshly assigned by one injector pass, in document
order: the counter increments of `injectLoop`, branch for branch. -/
def newAssigned : List Elem → Int → List Int
  | [], _ => []
  | e :: rest, id =>
    if injectSkips e then newAssigned rest id
    else
      match getAttr e.attrs "mmid" with
      | some s =>
        if s == "" then (id + 1) :: newAssigned rest (id + 1)
        else newAssigned rest id
      | none => (id + 1) :: newAssigned rest (id + 1)

theorem newAssigned_gt (es : List Elem) (id : Int) :
    ∀ x ∈ newAssigned es id, id < x := by
  induction es generalizing id with
  | nil => intro x hx; simp [newAssigned] at hx
  | cons e rest ih =>
    intro x hx
    by_cases hs : injectSkips e = true
    · simp only [newAssigned, hs, if_true] at hx
      exact ih id x hx
    · have hs' : injectSkips e = false := by simpa using hs
      cases hm : getAttr e.attrs "mmid" with
      | none =>
        simp only [newAssigned, hs', Bool.false_eq_true, if_false, hm,
          List.mem_cons] at hx
        rcases hx with rfl | hx
        · omega
        · have := ih (id + 1) x hx
          omega
      | some s =>
        by_cases hse : s = ""
        · subst hse
          simp only [newAssigned, hs', Bool.false_eq_true, if_false, hm,
            show (("" : String) == "") = true from rfl, if_true, List.mem_cons] at hx
          rcases hx with rfl | hx
          · omega
          · have := ih (id + 1) x hx
            omega
        · have hsb : (s == "") = false := by simpa using hse
          simp only [newAssigned, hs', Bool.false_eq_true, if_false, hm, hsb] at hx
          exact ih id x hx

theorem newAssigned_le (es : List Elem) (id : Int) :
    ∀ x ∈ newAssigned es id, x ≤ (injectLoop es id).2 := by
  induction es generalizing id with
  | nil => intro x hx; simp [newAssigned] at hx
  | cons e rest ih =>
    intro x hx
    by_cases hs : injectSkips e = true
    · simp only [newAssigned, hs, if_true] at hx
      simp only [injectLoop, hs, if_true]
      exact ih id x hx
    · have hs' : injectSkips e = false := by simpa using hs
      cases hm : getAttr e.attrs "mmid" with
      | none =>
        simp only [newAssigned, hs', Bool.false_eq_true, if_false, hm,
          List.mem_cons] at hx
        simp only [injectLoop, hs', Bool.false_eq_true, if_false, hm]
        rcases hx with rfl | hx
        · have := injectLoop_snd rest (id + 1)
          omega
        · exact ih (id + 1) x hx
      | some s =>
        by_cases hse : s = ""
        · subst hse
          simp only [newAssigned, hs', Bool.false_eq_true, if_false, hm,
            show (("" : String) == "") = true from rfl, if_true, List.mem_cons] at hx
          simp only [injectLoop, hs', Bool.false_eq_true, if_false, hm,
            show (("" : String) == "") = true from rfl, if_true]
          rcases hx with rfl | hx
          · have := injectLoop_snd rest (id + 1)
            omega
          · exact ih (id + 1) x hx
        · have hsb : (s == "") = false := by simpa using hse
          simp only [newAssigned, hs', Bool.false_eq_true, if_false, hm, hsb] at hx
          simp only [injectLoop, hs', Bool.false_eq_true, if_false, hm, hsb]
          exact ih id x hx

theorem newAssigned_pairwise (es : List Elem) (id : Int) :
    List.Pairwise (· < ·) (newAssigned es id) := by
  induction es generalizing id with
  | nil => exact List.Pairwise.nil
  | cons e rest ih =>
    by_cases hs : injectSkips e = true
    · simp only [newAssigned, hs, if_true]
      exact ih id
    · have hs' : injectSkips e = false := by simpa using hs
      cases hm : getAttr e.attrs "mmid" with
      | none =>
        simp only [newAssigned, hs', Bool.false_eq_true, if_false, hm]
        exact List.Pairwise.cons (fun x hx => newAssigned_gt rest (id + 1) x hx) (ih (id + 1))
      | some s =>
        by_cases hse : s = ""
        · subst hse
          simp only [newAssigned, hs', Bool.false_eq_true, if_false, hm,
            show (("" : String) == "") = true from rfl, if_true]
          exact List.Pairwise.cons (fun x hx => newAssigned_gt rest (id + 1) x hx) (ih (id + 1))
        · have hsb : (s == "") = false := by simpa using hse
          simp only [newAssigned, hs', Bool.false_eq_true, if_false, hm, hsb]
          exact ih id

theorem injectLoop_newValues (es : List Elem) (id : Int) :
    ((((injectLoop es id).1).zip es).filter (fun p => needsNewMmid p.2)).map
        (fun p => getAttr p.1.attrs "mmid") =
      (newAssigned es id).map (fun n => some (toString n)) := by
  induction es generalizing id with
  | nil => rfl
  | cons e rest ih =>
    by_cases hs : injectSkips e = true
    · have hn : needsNewMmid e = false := by simp [needsNewMmid, hs]
      simp only [injectLoop, hs, if_true, newAssigned, List.zip_cons_cons,
        List.filter_cons, hn, Bool.false_eq_true, if_false]
      exact ih id
    · have hs' : injectSkips e = false := by simpa using hs
      cases hm : getAttr e.attrs "mmid" with
      | none =>
        have hn : needsNewMmid e = true := by
          simp [needsNewMmid, hs', hasTruthyMmid, hm]
        simp only [injectLoop, hs', Bool.false_eq_true, if_false, hm, newAssigned,
          List.zip_cons_cons, List.filter_cons, hn, if_true, List.map_cons]
        rw [getAttr_injectTag_mmid]
        rw [ih (id + 1)]
      | some s =>
        by_cases hse : s = ""
        · subst hse
          have hn : needsNewMmid e = true := by
            simp [needsNewMmid, hs', hasTruthyMmid, hm]
          simp only [injectLoop, hs', Bool.false_eq_true, if_false, hm,
            show (("" : String) == "") = true from rfl, if_true, newAssigned,
            List.zip_cons_cons, List.filter_cons, hn, List.map_cons]
          rw [getAttr_injectTag_mmid]
          rw [ih (id + 1)]
        · have hsb : (s == "") = false := by simpa using hse
          have hn : needsNewMmid e = false := by
            simp [needsNewMmid, hs', hasTruthyMmid, hm, hse]
          simp only [injectLoop, hs', Bool.false_eq_true, if_false, hm, hsb,
            newAssigned, List.zip_cons_cons, List.filter_cons, hn,
            Bool.false_eq_true, if_false]
          exact ih id

/-- A session operation: one call into the injector or the cleanup. -/
inductive SessionOp where
  | inject : SessionOp
  | cleanup : SessionOp

/-- The document after one session operation. -/
def sessionStep (d : Doc) : SessionOp → Doc
  | SessionOp.inject => (injectMmidAttributes d).1
  | SessionOp.cleanup => cleanupMmidAttributes d

/-- All identifier values assigned over a sequence of inject/cleanup calls,
in order. -/
def sessionAssigned (d : Doc) : List SessionOp → List Int
  | [] => []
  | op :: ops =>
    (match op with
     | SessionOp.inject => newAssigned d.elems ((d.lastMmidAttr).getD (-1))
     | SessionOp.cleanup => []) ++ sessionAssigned (sessionStep d op) ops

theorem sessionAssigned_gt (ops : List SessionOp) (d : Doc) :
    ∀ x ∈ sessionAssigned d ops, (d.lastMmidAttr).getD (-1) < x := by
  induction ops generalizing d with
  | nil => intro x hx; simp [sessionAssigned] at hx
  | cons op ops ih =>
    intro x hx
    cases op with
    | inject =>
      simp only [sessionAssigned, List.mem_append] at hx
      rcases hx with hx | hx
      · exact newAssigned_gt d.elems _ x hx
      · have h1 := ih ((injectMmidAttributes d).1) x hx
        have h2 : ((injectMmidAttributes d).1).lastMmidAttr =
            some (injectLoop d.elems ((d.lastMmidAttr).getD (-1))).2 := rfl
        rw [h2] at h1
        have h3 := injectLoop_snd d.elems ((d.lastMmidAttr).getD (-1))
        simp only [Option.getD_some] at h1
        omega
    | cleanup =>
      simp only [sessionAssigned, List.nil_append] at hx
      have h1 := ih (cleanupMmidAttributes d) x hx
      have h2 : (cleanupMmidAttributes d).lastMmidAttr = d.lastMmidAttr := rfl
      rw [h2] at h1
      exact h1

theorem sessionAssigned_pairwise (ops : List SessionOp) (d : Doc) :
    List.Pairwise (· < ·) (sessionAssigned d ops) := by
  induction ops generalizing d with
  | nil => exact List.Pairwise.nil
  | cons op ops ih =>
    cases op with
    | inject =>
      simp only [sessionAssigned]
      rw [List.pairwise_append]
      refine ⟨newAssigned_pairwise d.elems _, ih _, ?_⟩
      intro a ha b hb
      have h1 := newAssigned_le d.elems ((d.lastMmidAttr).getD (-1)) a ha
      have h2 := sessionAssigned_gt ops ((injectMmidAttributes d).1) b hb
      have h3 : ((injectMmidAttributes d).1).lastMmidAttr =
          some (injectLoop d.elems ((d.lastMmidAttr).getD (-1))).2 := rfl
      rw [h3] at h2
      simp only [Option.getD_some] at h2
      omega
    | cleanup =>
      simp only [sessionAssigned, List.nil_append]
      exact ih (cleanupMmidAttributes d)

/-- Claim C5: within a single injection pass the freshly assigned identifiers
are strictly increasing in document-traversal order (and those are exactly
the `mmid` values written to the newly tagged elements, in order); and over
any sequence of inject/cleanup calls in one session — cleanup does not reset
the persisted high-water mark — the assigned values are strictly increasing
overall and hence no identifier value is ever assigned twice. -/
theorem claim_C5 (d : Doc) (ops : List SessionOp) :
    List.Pairwise (· < ·) (newAssigned d.elems ((d.lastMmidAttr).getD (-1))) ∧
    (((((injectMmidAttributesRun d).1).elems.zip d.elems).filter
          (fun p => needsNewMmid p.2)).map (fun p => getAttr p.1.attrs "mmid") =
      (newAssigned d.elems ((d.lastMmidAttr).getD (-1))).map
        (fun n => some (toString n))) ∧
    List.Pairwise (· < ·) (sessionAssigned d ops) ∧
    (sessionAssigned d ops).Nodup :=
  ⟨newAssigned_pairwise d.elems _,
   injectLoop_newValues d.elems _,
   sessionAssigned_pairwise ops d,
   List.Pairwise.imp (fun h => ne_of_lt h) (sessionAssigned_pairwise ops d)⟩

end R6d9
